import Mathlib

/-
  Verification development for the truffle codec format / decode engine.

  The data model (error taxonomy, Result algebra) is embedded from
  packages/codec/lib/format/errors.ts and the values module
  (src/unnamed/part_000, the codec format values.ts).  The decode engine
  body is not among the provided sources, so the engine itself is
  modelled from the specification (each such definition is marked
  "Modelled from the spec:").
-/

namespace Truffle

/-
  Numeric representation policy (format/config.ts).
  Config has a single axis: integerType, either "BN" (arbitrary
  precision integer) or "string" (decimal string).
-/

/-- The two numeric representation policies: arbitrary-precision BN, or decimal string. -/
inductive IntegerType where
  | BN
  | string
deriving DecidableEq

/-- A decode-session configuration: the single numeric-representation policy flag. -/
structure Config where
  integerType : IntegerType
deriving DecidableEq

/-- BN (bn.js arbitrary-precision integer) modelled as Nat; raw words are nonnegative. -/
def BN : Type := Nat
deriving DecidableEq

/-- A numeric quantity as carried by a value or error: either as a BN
(field rawAsBN and friends) or as a decimal string (field rawAsString and
friends), according to the session configuration. -/
inductive RawIntRep where
  | asBN (value : Nat)
  | asString (value : String)
deriving DecidableEq

/-- Render a raw integer in the representation selected by the config,
as the decode engine does uniformly for every emitted quantity. -/
def reprNat (c : Config) (n : Nat) : RawIntRep :=
  match c.integerType with
  | IntegerType.BN => RawIntRep.asBN n
  | IntegerType.string => RawIntRep.asString (toString n)

/-
  Supporting types from modules adjacent to errors.ts (common.ts,
  storage.ts, ast types); these modules are not among the sources, so
  they are modelled minimally from how errors.ts uses them.
-/

/-- Padding policy violated by a padding error (common PaddingType). -/
inductive PaddingType where
  | left
  | right
  | signed
deriving DecidableEq

/-- A byte-based location (errors.ts BytesLocation). -/
inductive BytesLocation where
  | memory
  | calldata
  | eventdata
  | returndata
  | code
deriving DecidableEq

/-- Modelled from the spec: a storage range (slot, byte offset within the
slot, byte length) as computed by the Storage Range Calculator; the
Storage.Range module is not among the sources. -/
structure StorageRange where
  slot : Nat
  index : Nat
  length : Nat
deriving DecidableEq

/-- Modelled from the spec: an AST node for UnsupportedConstantError's
definition field; the ast types module is not among the sources. -/
structure AstNode where
  id : Nat
  nodeType : String
deriving DecidableEq

/-- Modelled from the spec: a contract type descriptor (Types.ContractType);
the types.ts module is not among the sources. -/
structure ContractType where
  id : Nat
  typeName : String
deriving DecidableEq

/-
  Type descriptors.  types.ts is not among the sources; modelled from the
  spec: every descriptor exposes a discriminant naming its category and
  the data needed to decode it (bit width for integers, member-list id
  for enums, field list for structs).
-/

mutual

/-- Modelled from the spec: a type descriptor for the categories the
decode-engine model covers. -/
inductive Ty where
  | bool
  | uint (bits : Nat)
  | enum (id : Nat)
  | contract (id : Nat)
  | functionExternal
  | functionInternal
  | struct (fields : FieldList)

/-- A struct's declared field list, in declaration order. -/
inductive FieldList where
  | nil
  | cons (name : String) (ty : Ty) (rest : FieldList)

end

/-- Length of a field list. -/
def FieldList.length : FieldList → Nat
  | FieldList.nil => 0
  | FieldList.cons _ _ rest => rest.length + 1

/-- Indexed lookup into a field list. -/
def FieldList.get? : FieldList → Nat → Option (String × Ty)
  | FieldList.nil, _ => none
  | FieldList.cons n t _, 0 => some (n, t)
  | FieldList.cons _ _ rest, i + 1 => rest.get? i

mutual

/-- Boolean equality on type descriptors. -/
def Ty.beq : Ty → Ty → Bool
  | Ty.bool, Ty.bool => true
  | Ty.uint a, Ty.uint b => a == b
  | Ty.enum a, Ty.enum b => a == b
  | Ty.contract a, Ty.contract b => a == b
  | Ty.functionExternal, Ty.functionExternal => true
  | Ty.functionInternal, Ty.functionInternal => true
  | Ty.struct fs, Ty.struct gs => FieldList.beq fs gs
  | _, _ => false

/-- Boolean equality on field lists. -/
def FieldList.beq : FieldList → FieldList → Bool
  | FieldList.nil, FieldList.nil => true
  | FieldList.cons n t ts, FieldList.cons m u us =>
      n == m && Ty.beq t u && FieldList.beq ts us
  | _, _ => false

end

mutual

theorem Ty.beq_self_true : ∀ t : Ty, Ty.beq t t = true
  | Ty.bool => rfl
  | Ty.uint a => by simp [Ty.beq]
  | Ty.enum a => by simp [Ty.beq]
  | Ty.contract a => by simp [Ty.beq]
  | Ty.functionExternal => rfl
  | Ty.functionInternal => rfl
  | Ty.struct fs => by simp [Ty.beq, FieldList.beq_same_true fs]

theorem FieldList.beq_same_true : ∀ fs : FieldList, FieldList.beq fs fs = true
  | FieldList.nil => rfl
  | FieldList.cons n t ts => by
      simp [FieldList.beq, Ty.beq_self_true t, FieldList.beq_same_true ts]

end

/-
  SECTION: the error taxonomy, from errors.ts.
-/

/-- A read error (errors.ts ReadError union): unsupported constant, stack
read, byte-location read, storage read, unused immutable. -/
inductive ReadError where
  | unsupportedConstantError (definition : AstNode)
  | readErrorStack (fromSlot toSlot : Nat)
  | readErrorBytes (location : BytesLocation) (start length : Nat)
  | readErrorStorage (range : StorageRange)
  | unusedImmutableError
deriving DecidableEq

/-- A category-independent generic error (errors.ts GenericError union):
unresolvable user-defined type, indexed reference-type parameter, or a
read error. -/
inductive GenericError where
  | userDefinedTypeNotFoundError (type : Ty)
  | indexedReferenceTypeError (type : Ty) (raw : String)
  | readError (error : ReadError)

/-- The full DecoderError union from errors.ts: the generic errors plus
every category-specific error kind. -/
inductive DecoderError where
  | genericError (error : GenericError)
  | uintPaddingError (raw : String) (paddingType : PaddingType)
  | intPaddingError (raw : String) (paddingType : PaddingType)
  | boolOutOfRangeError (rawInteger : RawIntRep)
  | boolPaddingError (raw : String) (paddingType : PaddingType)
  | bytesPaddingError (raw : String) (paddingType : PaddingType)
  | addressPaddingError (raw : String) (paddingType : PaddingType)
  | fixedPaddingError (raw : String) (paddingType : PaddingType)
  | ufixedPaddingError (raw : String) (paddingType : PaddingType)
  | enumOutOfRangeError (type : Ty) (rawInteger : RawIntRep)
  | enumPaddingError (raw : String) (type : Ty) (paddingType : PaddingType)
  | enumNotFoundDecodingError (type : Ty) (rawInteger : RawIntRep)
  | contractPaddingError (raw : String) (paddingType : PaddingType)
  | functionExternalNonStackPaddingError (raw : String) (paddingType : PaddingType)
  | functionExternalStackPaddingError (rawAddress : String) (rawSelector : String)
  | functionInternalPaddingError (raw : String) (paddingType : PaddingType)
  | noSuchInternalFunctionError (context : ContractType)
      (deployedProgramCounter constructorProgramCounter : Nat)
  | deployedFunctionInConstructorError (context : ContractType)
      (deployedProgramCounter constructorProgramCounter : Nat)
  | malformedInternalFunctionError (context : ContractType)
      (deployedProgramCounter constructorProgramCounter : Nat)
  | overlongArraysAndStringsNotImplementedError (lengthInteger : RawIntRep)
      (dataLength : Option Nat)
  | overlargePointersNotImplementedError (pointerAsBN : Nat) (pointerInteger : RawIntRep)
  | overlongArrayOrStringStrictModeError (lengthInteger : RawIntRep) (dataLength : Nat)
  | internalFunctionInABIError

/-- Marks a user-defined-type-not-found error. -/
def DecoderError.isUserDefinedTypeNotFound : DecoderError → Bool
  | DecoderError.genericError (GenericError.userDefinedTypeNotFoundError _) => true
  | _ => false

/-- Marks a read error. -/
def DecoderError.isReadError : DecoderError → Bool
  | DecoderError.genericError (GenericError.readError _) => true
  | _ => false

/-- Membership test for the ErrorForThrowing union of errors.ts, which is
declared there as UserDefinedTypeNotFoundError union ReadError. -/
def DecoderError.isErrorForThrowing : DecoderError → Bool
  | DecoderError.genericError (GenericError.userDefinedTypeNotFoundError _) => true
  | DecoderError.genericError (GenericError.readError _) => true
  | _ => false

/-
  SECTION: static metadata entities resolved against during decoding
  (spec section 6: contract registry, jump-destination tables).
-/

/-- Modelled from the spec: a known-contract registry entry: the
contract's name and its declared function-selector table (selector,
abi entry name). -/
structure KnownContract where
  name : String
  selectors : List (Nat × String)
deriving DecidableEq

/-- Modelled from the spec: a jump-destination table entry: the function
identity a deployed program counter resolves to (name, defining contract
or none for a free function, opaque id). -/
structure InternalFunction where
  name : String
  definedIn : Option ContractType
  id : String
deriving DecidableEq

/-
  SECTION: the Value/Result algebra, from the values module
  (src/unnamed/part_000) and, for elementary values, modelled from the
  spec (elementary.ts is not among the sources).
-/

/-- Modelled from the spec: a successfully decoded elementary value
(elementary.ts is not among the sources): a leaf holding the interpreted
scalar, always kind "value", and always carrying its type descriptor. -/
inductive ElementaryValue where
  | uintValue (type : Ty) (value : RawIntRep)
  | intValue (type : Ty) (value : Int)
  | boolValue (type : Ty) (value : Bool)
  | bytesStaticValue (type : Ty) (raw : String)
  | bytesDynamicValue (type : Ty) (raw : String)
  | addressValue (type : Ty) (address : String)
  | stringValue (type : Ty) (value : String)
  | fixedValue (type : Ty) (value : Int)
  | ufixedValue (type : Ty) (value : Int)
  | enumValue (type : Ty) (name : String)
  | contractValue (type : Ty) (address : Nat) (contractName : String)

/-- External function values come in 3 kinds (values.ts
FunctionExternalValueInfo): known function of known contract, known
contract but unknown selector ("invalid"), unknown contract
("unknown").  The raw selector is carried in every kind. -/
inductive FunctionExternalValueInfo where
  | known (contract : KnownContract) (selector : Nat) (abiEntry : String)
  | invalid (contract : KnownContract) (selector : Nat)
  | unknown (address : Nat) (selector : Nat)
deriving DecidableEq

/-- Internal function values come in 3 kinds (values.ts
FunctionInternalValueInfo): an actual function, the compiler's default
"exception" sentinel, or "unknown" when the context cannot support full
decoding.  Each carries the context and both program counters. -/
inductive FunctionInternalValueInfo where
  | function (context : ContractType) (deployedProgramCounter constructorProgramCounter : Nat)
      (name : String) (definedIn : Option ContractType) (id : String)
  | exception (context : ContractType) (deployedProgramCounter constructorProgramCounter : Nat)
  | unknown (context : ContractType) (deployedProgramCounter constructorProgramCounter : Nat)
deriving DecidableEq

mutual

/-- The overall Result type (values.ts Result): a successfully decoded
value of some category, or an ErrorResult.  Every constructor carries the
type descriptor that was being decoded; the per-category ErrorResult
interfaces all carry a type alongside the error. -/
inductive Result where
  | uintValue (type : Ty) (value : RawIntRep)
  | intValue (type : Ty) (value : Int)
  | boolValue (type : Ty) (value : Bool)
  | bytesStaticValue (type : Ty) (raw : String)
  | bytesDynamicValue (type : Ty) (raw : String)
  | addressValue (type : Ty) (address : String)
  | stringValue (type : Ty) (value : String)
  | fixedValue (type : Ty) (value : Int)
  | ufixedValue (type : Ty) (value : Int)
  | enumValue (type : Ty) (name : String)
  | contractValue (type : Ty) (address : Nat) (contractName : String)
  | structValue (type : Ty) (fields : ResultFields)
  | functionExternalValue (type : Ty) (value : FunctionExternalValueInfo)
  | functionInternalValue (type : Ty) (value : FunctionInternalValueInfo)
  | errorResult (type : Ty) (error : DecoderError)

/-- A struct value's children (values.ts NameValuePair list): name and
child Result, stored in declaration order; children may themselves be
error results. -/
inductive ResultFields where
  | nil
  | cons (name : String) (value : Result) (rest : ResultFields)

end

/-- The two tags a Result can carry (values.ts: kind "value" or "error"). -/
inductive ResultKind where
  | value
  | error
deriving DecidableEq

/-- The tag of a Result: only the ErrorResult constructor is tagged
"error"; everything else is a successfully decoded value. -/
def Result.kind : Result → ResultKind
  | Result.errorResult _ _ => ResultKind.error
  | _ => ResultKind.value

/-- The type descriptor a Result carries: present on every variant,
including every ErrorResult. -/
def Result.type : Result → Ty
  | Result.uintValue t _ => t
  | Result.intValue t _ => t
  | Result.boolValue t _ => t
  | Result.bytesStaticValue t _ => t
  | Result.bytesDynamicValue t _ => t
  | Result.addressValue t _ => t
  | Result.stringValue t _ => t
  | Result.fixedValue t _ => t
  | Result.ufixedValue t _ => t
  | Result.enumValue t _ => t
  | Result.contractValue t _ _ => t
  | Result.structValue t _ => t
  | Result.functionExternalValue t _ => t
  | Result.functionInternalValue t _ => t
  | Result.errorResult t _ => t

/-- Length of a result field list. -/
def ResultFields.length : ResultFields → Nat
  | ResultFields.nil => 0
  | ResultFields.cons _ _ rest => rest.length + 1

/-- Indexed lookup into a result field list. -/
def ResultFields.get? : ResultFields → Nat → Option (String × Result)
  | ResultFields.nil, _ => none
  | ResultFields.cons n r _, 0 => some (n, r)
  | ResultFields.cons _ _ rest, i + 1 => rest.get? i

/-- An elementary value viewed as a Result (in values.ts the elementary
Value interfaces are members of the Result union directly). -/
def ElementaryValue.toResult : ElementaryValue → Result
  | ElementaryValue.uintValue t v => Result.uintValue t v
  | ElementaryValue.intValue t v => Result.intValue t v
  | ElementaryValue.boolValue t v => Result.boolValue t v
  | ElementaryValue.bytesStaticValue t v => Result.bytesStaticValue t v
  | ElementaryValue.bytesDynamicValue t v => Result.bytesDynamicValue t v
  | ElementaryValue.addressValue t v => Result.addressValue t v
  | ElementaryValue.stringValue t v => Result.stringValue t v
  | ElementaryValue.fixedValue t v => Result.fixedValue t v
  | ElementaryValue.ufixedValue t v => Result.ufixedValue t v
  | ElementaryValue.enumValue t v => Result.enumValue t v
  | ElementaryValue.contractValue t a n => Result.contractValue t a n

mutual

/-- A Result tree is well-typed when every struct node's children agree,
position by position, with the node's own struct type descriptor: same
field names, and each child carries the declared field type, recursively. -/
def Result.wellTyped : Result → Bool
  | Result.structValue t fields =>
      match t with
      | Ty.struct fts => ResultFields.wellTypedAgainst fts fields
      | _ => false
  | _ => true

/-- Pointwise check of a struct's children against its declared fields. -/
def ResultFields.wellTypedAgainst : FieldList → ResultFields → Bool
  | FieldList.nil, ResultFields.nil => true
  | FieldList.cons n t ts, ResultFields.cons m r rs =>
      n == m && Ty.beq r.type t && r.wellTyped && ResultFields.wellTypedAgainst ts rs
  | _, _ => false

end

/-
  SECTION: mapping, magic and type-value categories (values.ts and
  errors.ts).  Their Types descriptors are separate interfaces in
  types.ts (not among the sources), modelled minimally.
-/

/-- Modelled from the spec: a mapping type descriptor (Types.MappingType):
key type and value type. -/
structure MappingType where
  keyType : Ty
  valueType : Ty

/-- Modelled from the spec: a magic-variable type descriptor
(Types.MagicType). -/
structure MagicType where
  variableName : String

/-- Modelled from the spec: a type-value type descriptor
(Types.TypeType). -/
structure TypeType where
  underlying : Ty

/-- A mapping-specific error (errors.ts: there are none, the member is
declared as never). -/
def MappingError : Type := Empty

/-- A magic-specific error (errors.ts: there are none, declared never). -/
def MagicError : Type := Empty

/-- An error specific to type values (errors.ts TypeErrorUnion: there are
none, declared never). -/
def TypeErrorUnion : Type := Empty

/-- An error result for a mapping (errors.ts MappingErrorResult): the
error is a GenericError or a MappingError. -/
structure MappingErrorResult where
  type : MappingType
  error : GenericError ⊕ MappingError

/-- An error result for a magic variable (errors.ts MagicErrorResult). -/
structure MagicErrorResult where
  type : MagicType
  error : GenericError ⊕ MagicError

/-- An error result for a type value (errors.ts TypeErrorResult). -/
structure TypeErrorResult where
  type : TypeType
  error : GenericError ⊕ TypeErrorUnion

/-- A mapping's key-value pair (values.ts KeyValuePair): the key is an
ElementaryValue — a value, not an error — while the associated value is a
full Result. -/
structure KeyValuePair where
  key : ElementaryValue
  value : Result

/-- A mapping value (values.ts MappingValue): a list of key-value pairs. -/
structure MappingValue where
  type : MappingType
  value : List KeyValuePair

/-
  SECTION: the decode engine.  The engine body is not among the provided
  sources (only its type declarations are), so the whole engine is
  modelled from the spec, sections 4.4, 6 and 7.
-/

/-- Modelled from the spec: the read locations the engine model
distinguishes (persistent storage, the stack, and a byte-based location
standing for memory/calldata/etc.). -/
inductive Location where
  | storage
  | stack
  | memory
deriving DecidableEq

/-- Modelled from the spec: the immutable per-invocation environment: the
numeric policy flag, the byte-read capability (none = read failure), and
the static-metadata bundle (enum definitions, contract definitions, the
contract registry by address, the jump-destination table, the decoding
context). -/
structure DecodeEnv where
  cfg : Config
  readWord : Location → Nat → Option Nat
  enumDefs : Nat → Option (List String)
  contractDefs : Nat → Option String
  registry : Nat → Option KnownContract
  jumpdests : Nat → Option InternalFunction
  currentContext : ContractType
  inConstructor : Bool
  fullContextAvailable : Bool
  nonStorageDefault : Nat × Nat

/-- Modelled from the spec: the read error reported when no bytes were
obtainable at a location (stack range, byte range, or storage range). -/
def readFailure (loc : Location) (slot : Nat) : DecoderError :=
  match loc with
  | Location.stack => DecoderError.genericError
      (GenericError.readError (ReadError.readErrorStack slot slot))
  | Location.memory => DecoderError.genericError
      (GenericError.readError (ReadError.readErrorBytes BytesLocation.memory (slot * 32) 32))
  | Location.storage => DecoderError.genericError
      (GenericError.readError (ReadError.readErrorStorage ⟨slot, 0, 32⟩))

/-- Hex rendering of a raw word for padding errors. -/
def natToHex (n : Nat) : String :=
  "0x" ++ String.mk (Nat.toDigits 16 n)

/-- Modelled from the spec: look a selector up in a known contract's
declared function table. -/
def selectorLookup (c : KnownContract) (sel : Nat) : Option String :=
  (c.selectors.find? (fun p => p.1 == sel)).map (fun p => p.2)

/-- Modelled from the spec (4.4, external function pointer): three-tier
resolution against the contract registry, in priority order: known
contract with declared selector, known contract without it, unknown
contract.  Never a decode failure. -/
def resolveExternal (env : DecodeEnv) (addr sel : Nat) : FunctionExternalValueInfo :=
  match env.registry addr with
  | some c =>
      match selectorLookup c sel with
      | some abiEntry => FunctionExternalValueInfo.known c sel abiEntry
      | none => FunctionExternalValueInfo.invalid c sel
  | none => FunctionExternalValueInfo.unknown addr sel

/-- Modelled from the spec (4.4): decode an external function pointer.
On the stack, address and selector are two separate full words; elsewhere
they are packed into one word (20-byte address, 4-byte selector, zero
tail), so the padding error shape differs by location.  Padding faults
are embedded; read faults are thrown. -/
def decodeExternal (env : DecodeEnv) (loc : Location) (slot : Nat) :
    Except DecoderError Result :=
  match loc with
  | Location.stack =>
      match env.readWord Location.stack slot with
      | none => Except.error (readFailure Location.stack slot)
      | some wAddr =>
          match env.readWord Location.stack (slot + 1) with
          | none => Except.error (readFailure Location.stack (slot + 1))
          | some wSel =>
              if wAddr < 2 ^ 160 ∧ wSel < 2 ^ 32 then
                Except.ok (Result.functionExternalValue Ty.functionExternal
                  (resolveExternal env wAddr wSel))
              else
                Except.ok (Result.errorResult Ty.functionExternal
                  (DecoderError.functionExternalStackPaddingError
                    (natToHex wAddr) (natToHex wSel)))
  | _ =>
      match env.readWord loc slot with
      | none => Except.error (readFailure loc slot)
      | some w =>
          if w % 2 ^ 64 = 0 then
            Except.ok (Result.functionExternalValue Ty.functionExternal
              (resolveExternal env (w / 2 ^ 96) (w / 2 ^ 64 % 2 ^ 32)))
          else
            Except.ok (Result.errorResult Ty.functionExternal
              (DecoderError.functionExternalNonStackPaddingError (natToHex w)
                PaddingType.right))

/-- Modelled from the spec (4.4): the canonical all-default PC pair for a
location: the all-zero pair in storage, the compiler's fixed nonzero pair
elsewhere. -/
def canonicalDefault (env : DecodeEnv) (loc : Location) : Nat × Nat :=
  match loc with
  | Location.storage => (0, 0)
  | _ => env.nonStorageDefault

/-- Modelled from the spec (4.4, internal function pointer): the decision
procedure over a PC pair.  Either canonical default succeeds with an
exception-kind value; an environment without full jump-destination
information yields an unknown-kind value; otherwise the deployed PC is
resolved against the jump-destination table, and failure to resolve is
classified malformed / deployed-in-constructor / no-such-function. -/
def classifyInternal (env : DecodeEnv) (dpc cpc : Nat) : Result :=
  if (dpc, cpc) = (0, 0) ∨ (dpc, cpc) = env.nonStorageDefault then
    Result.functionInternalValue Ty.functionInternal
      (FunctionInternalValueInfo.exception env.currentContext dpc cpc)
  else if env.fullContextAvailable = false then
    Result.functionInternalValue Ty.functionInternal
      (FunctionInternalValueInfo.unknown env.currentContext dpc cpc)
  else
    match env.jumpdests dpc with
    | some f =>
        Result.functionInternalValue Ty.functionInternal
          (FunctionInternalValueInfo.function env.currentContext dpc cpc
            f.name f.definedIn f.id)
    | none =>
        if dpc = 0 ∧ cpc ≠ 0 then
          Result.errorResult Ty.functionInternal
            (DecoderError.malformedInternalFunctionError env.currentContext dpc cpc)
        else if env.inConstructor ∧ cpc = 0 then
          Result.errorResult Ty.functionInternal
            (DecoderError.deployedFunctionInConstructorError env.currentContext dpc cpc)
        else
          Result.errorResult Ty.functionInternal
            (DecoderError.noSuchInternalFunctionError env.currentContext dpc cpc)

/-- Modelled from the spec: decode an internal function pointer: read the
word carrying the PC pair (two 32-bit counters), check padding, then run
the decision procedure. -/
def decodeInternalFn (env : DecodeEnv) (loc : Location) (slot : Nat) :
    Except DecoderError Result :=
  match env.readWord loc slot with
  | none => Except.error (readFailure loc slot)
  | some w =>
      if w < 2 ^ 64 then
        Except.ok (classifyInternal env (w / 2 ^ 32) (w % 2 ^ 32))
      else
        Except.ok (Result.errorResult Ty.functionInternal
          (DecoderError.functionInternalPaddingError (natToHex w) PaddingType.left))

mutual

/-- Modelled from the spec (4.4): the recursive decode procedure.  Local
faults (padding, out-of-range, enum lookup, oversized pointers) are
embedded in place as errorResult nodes; only read failures and an
unresolvable user-defined type are thrown through the Except channel and
abort the whole decode. -/
def decode (env : DecodeEnv) (loc : Location) (slot : Nat) : Ty → Except DecoderError Result
  | Ty.bool =>
      match env.readWord loc slot with
      | none => Except.error (readFailure loc slot)
      | some w =>
          if w ≥ 2 then
            Except.ok (Result.errorResult Ty.bool
              (DecoderError.boolOutOfRangeError (reprNat env.cfg w)))
          else
            Except.ok (Result.boolValue Ty.bool (w == 1))
  | Ty.uint bits =>
      match env.readWord loc slot with
      | none => Except.error (readFailure loc slot)
      | some w =>
          if w < 2 ^ bits then
            Except.ok (Result.uintValue (Ty.uint bits) (reprNat env.cfg w))
          else
            Except.ok (Result.errorResult (Ty.uint bits)
              (DecoderError.uintPaddingError (natToHex w) PaddingType.left))
  | Ty.enum id =>
      match env.readWord loc slot with
      | none => Except.error (readFailure loc slot)
      | some w =>
          match env.enumDefs id with
          | none =>
              Except.ok (Result.errorResult (Ty.enum id)
                (DecoderError.enumNotFoundDecodingError (Ty.enum id) (reprNat env.cfg w)))
          | some members =>
              if w < members.length then
                Except.ok (Result.enumValue (Ty.enum id) (members.getD w ""))
              else
                Except.ok (Result.errorResult (Ty.enum id)
                  (DecoderError.enumOutOfRangeError (Ty.enum id) (reprNat env.cfg w)))
  | Ty.contract id =>
      match env.readWord loc slot with
      | none => Except.error (readFailure loc slot)
      | some w =>
          if w < 2 ^ 160 then
            match env.contractDefs id with
            | none =>
                Except.error (DecoderError.genericError
                  (GenericError.userDefinedTypeNotFoundError (Ty.contract id)))
            | some cname => Except.ok (Result.contractValue (Ty.contract id) w cname)
          else
            Except.ok (Result.errorResult (Ty.contract id)
              (DecoderError.contractPaddingError (natToHex w) PaddingType.left))
  | Ty.functionExternal => decodeExternal env loc slot
  | Ty.functionInternal => decodeInternalFn env loc slot
  | Ty.struct fts =>
      match env.readWord loc slot with
      | none => Except.error (readFailure loc slot)
      | some ptr =>
          if ptr < 2 ^ 53 then
            match decodeFields env loc ptr fts with
            | Except.ok fs => Except.ok (Result.structValue (Ty.struct fts) fs)
            | Except.error e => Except.error e
          else
            Except.ok (Result.errorResult (Ty.struct fts)
              (DecoderError.overlargePointersNotImplementedError ptr (reprNat env.cfg ptr)))

/-- Modelled from the spec (4.4): decode a struct's fields independently,
one word slot per field, assembling the name-value children; only thrown
(fatal) child faults propagate. -/
def decodeFields (env : DecodeEnv) (loc : Location) (slot : Nat) :
    FieldList → Except DecoderError ResultFields
  | FieldList.nil => Except.ok ResultFields.nil
  | FieldList.cons name t rest =>
      match decode env loc slot t with
      | Except.error e => Except.error e
      | Except.ok r =>
          match decodeFields env loc (slot + 1) rest with
          | Except.error e => Except.error e
          | Except.ok rs => Except.ok (ResultFields.cons name r rs)

end

/-
  SECTION: numeric-representation field shapes (errors.ts sections 7-8).
  The config-indexed intersection types of errors.ts are reflected as
  field lists: each error shape's numeric-quantity fields, with the
  representation each field uses.
-/

/-- The representation a numeric field uses: BN or decimal string. -/
inductive FieldRep where
  | bn
  | str
deriving DecidableEq

/-- A numeric field of an error shape: its name and representation. -/
structure NumericField where
  name : String
  rep : FieldRep
deriving DecidableEq

/-- The representation selected by a config. -/
def configuredRep (c : Config) : FieldRep :=
  match c.integerType with
  | IntegerType.BN => FieldRep.bn
  | IntegerType.string => FieldRep.str

/-- The representation a RawIntRep value actually uses. -/
def RawIntRep.rep : RawIntRep → FieldRep
  | RawIntRep.asBN _ => FieldRep.bn
  | RawIntRep.asString _ => FieldRep.str

/-- errors.ts RawIntegerFields: rawAsBN under BN, rawAsString under string. -/
def rawIntegerFields : IntegerType → List NumericField
  | IntegerType.BN => [⟨"rawAsBN", FieldRep.bn⟩]
  | IntegerType.string => [⟨"rawAsString", FieldRep.str⟩]

/-- errors.ts LengthIntegerFields: lengthAsBN under BN, lengthAsString
under string. -/
def lengthIntegerFields : IntegerType → List NumericField
  | IntegerType.BN => [⟨"lengthAsBN", FieldRep.bn⟩]
  | IntegerType.string => [⟨"lengthAsString", FieldRep.str⟩]

/-- errors.ts PointerIntegerFields: pointerAsBN under BN, pointerAsString
under string. -/
def pointerIntegerFields : IntegerType → List NumericField
  | IntegerType.BN => [⟨"pointerAsBN", FieldRep.bn⟩]
  | IntegerType.string => [⟨"pointerAsString", FieldRep.str⟩]

/-- Intersection of two field lists (TypeScript intersection of object
types): the union of the fields, deduplicated by name. -/
def fieldUnion (a b : List NumericField) : List NumericField :=
  a ++ b.filter (fun f => ¬ a.any (fun g => g.name == f.name))

/-- Numeric fields of BoolOutOfRangeError: base fields hold only the
kind, so just RawIntegerFields of the config. -/
def boolOutOfRangeErrorNumericFields (c : Config) : List NumericField :=
  rawIntegerFields c.integerType

/-- Numeric fields of EnumOutOfRangeError: base fields hold kind and
type, so just RawIntegerFields of the config. -/
def enumOutOfRangeErrorNumericFields (c : Config) : List NumericField :=
  rawIntegerFields c.integerType

/-- Numeric fields of EnumNotFoundDecodingError: just RawIntegerFields of
the config. -/
def enumNotFoundErrorNumericFields (c : Config) : List NumericField :=
  rawIntegerFields c.integerType

/-- Numeric fields of OverlongArraysAndStringsNotImplementedError: base
fields hold kind and an optional plain-number dataLength, so just
LengthIntegerFields of the config. -/
def overlongArraysErrorNumericFields (c : Config) : List NumericField :=
  lengthIntegerFields c.integerType

/-- Numeric fields of OverlargePointersNotImplementedError: the BASE
fields of errors.ts already contain pointerAsBN as a BN, intersected with
PointerIntegerFields of the config. -/
def overlargePointersErrorNumericFields (c : Config) : List NumericField :=
  fieldUnion [⟨"pointerAsBN", FieldRep.bn⟩] (pointerIntegerFields c.integerType)

/-- Numeric fields of OverlongArrayOrStringStrictModeError (internal
use): LengthIntegerFields of the config. -/
def overlongStrictModeErrorNumericFields (c : Config) : List NumericField :=
  lengthIntegerFields c.integerType

/-
  SECTION: engine lemmas shared by the claim theorems below.
-/
theorem readFailure_throwable (loc : Location) (slot : Nat) :
    (readFailure loc slot).isErrorForThrowing = true := by
  cases loc <;> rfl

theorem decodeExternal_error_throwable (env : DecodeEnv) (loc : Location) (slot : Nat)
    (e : DecoderError) (h : decodeExternal env loc slot = Except.error e) :
    e.isErrorForThrowing = true := by
  unfold decodeExternal at h
  cases loc <;> (repeat' split at h) <;>
    first
      | (simp only [Except.error.injEq] at h
         exact h ▸ readFailure_throwable _ _)
      | simp at h

theorem decodeInternalFn_error_throwable (env : DecodeEnv) (loc : Location) (slot : Nat)
    (e : DecoderError) (h : decodeInternalFn env loc slot = Except.error e) :
    e.isErrorForThrowing = true := by
  unfold decodeInternalFn at h
  (repeat' split at h) <;>
    first
      | (simp only [Except.error.injEq] at h
         exact h ▸ readFailure_throwable _ _)
      | simp at h

mutual

theorem decode_error_throwable (env : DecodeEnv) (loc : Location) (slot : Nat) :
    ∀ (ty : Ty) (e : DecoderError), decode env loc slot ty = Except.error e →
      e.isErrorForThrowing = true
  | Ty.bool, e, h => by
      unfold decode at h
      (repeat' split at h) <;>
        first
          | (simp only [Except.error.injEq] at h
             subst h
             first
               | rfl
               | exact readFailure_throwable _ _)
          | simp at h
  | Ty.uint bits, e, h => by
      unfold decode at h
      (repeat' split at h) <;>
        first
          | (simp only [Except.error.injEq] at h
             subst h
             first
               | rfl
               | exact readFailure_throwable _ _)
          | simp at h
  | Ty.enum id, e, h => by
      unfold decode at h
      (repeat' split at h) <;>
        first
          | (simp only [Except.error.injEq] at h
             subst h
             first
               | rfl
               | exact readFailure_throwable _ _)
          | simp at h
  | Ty.contract id, e, h => by
      unfold decode at h
      (repeat' split at h) <;>
        first
          | (simp only [Except.error.injEq] at h
             subst h
             first
               | rfl
               | exact readFailure_throwable _ _)
          | simp at h
  | Ty.functionExternal, e, h => decodeExternal_error_throwable env loc slot e h
  | Ty.functionInternal, e, h => decodeInternalFn_error_throwable env loc slot e h
  | Ty.struct fts, e, h => by
      unfold decode at h
      split at h
      case h_1 =>
        simp only [Except.error.injEq] at h
        exact h ▸ readFailure_throwable _ _
      case h_2 =>
        split at h
        · split at h
          · simp at h
          · rename_i heq
            simp only [Except.error.injEq] at h
            subst h
            exact decodeFields_error_throwable env loc _ fts _ heq
        · simp at h

theorem decodeFields_error_throwable (env : DecodeEnv) (loc : Location) (slot : Nat) :
    ∀ (fts : FieldList) (e : DecoderError),
      decodeFields env loc slot fts = Except.error e → e.isErrorForThrowing = true
  | FieldList.nil, e, h => by simp [decodeFields] at h
  | FieldList.cons n t rest, e, h => by
      unfold decodeFields at h
      split at h
      · rename_i heq
        simp only [Except.error.injEq] at h
        exact h ▸ decode_error_throwable env loc slot t e (h ▸ heq)
      · split at h
        · rename_i heq
          simp only [Except.error.injEq] at h
          exact h ▸ decodeFields_error_throwable env loc (slot + 1) rest _ heq
        · simp at h

end

theorem decodeExternal_ok_type (env : DecodeEnv) (loc : Location) (slot : Nat)
    (r : Result) (h : decodeExternal env loc slot = Except.ok r) :
    r.type = Ty.functionExternal ∧ r.wellTyped = true := by
  unfold decodeExternal at h
  cases loc <;> (repeat' split at h) <;>
    first
      | (simp only [Except.ok.injEq] at h
         subst h
         exact ⟨rfl, rfl⟩)
      | simp at h

theorem decodeInternalFn_ok_type (env : DecodeEnv) (loc : Location) (slot : Nat)
    (r : Result) (h : decodeInternalFn env loc slot = Except.ok r) :
    r.type = Ty.functionInternal ∧ r.wellTyped = true := by
  unfold decodeInternalFn classifyInternal at h
  (repeat' split at h) <;>
    first
      | (simp only [Except.ok.injEq] at h
         subst h
         exact ⟨rfl, rfl⟩)
      | simp at h

mutual

theorem decode_ok_type (env : DecodeEnv) (loc : Location) (slot : Nat) :
    ∀ (ty : Ty) (r : Result), decode env loc slot ty = Except.ok r →
      r.type = ty ∧ r.wellTyped = true
  | Ty.bool, r, h => by
      unfold decode at h
      (repeat' split at h) <;>
        first
          | (simp only [Except.ok.injEq] at h
             subst h
             exact ⟨rfl, rfl⟩)
          | simp at h
  | Ty.uint bits, r, h => by
      unfold decode at h
      (repeat' split at h) <;>
        first
          | (simp only [Except.ok.injEq] at h
             subst h
             exact ⟨rfl, rfl⟩)
          | simp at h
  | Ty.enum id, r, h => by
      unfold decode at h
      (repeat' split at h) <;>
        first
          | (simp only [Except.ok.injEq] at h
             subst h
             exact ⟨rfl, rfl⟩)
          | simp at h
  | Ty.contract id, r, h => by
      unfold decode at h
      (repeat' split at h) <;>
        first
          | (simp only [Except.ok.injEq] at h
             subst h
             exact ⟨rfl, rfl⟩)
          | simp at h
  | Ty.functionExternal, r, h => decodeExternal_ok_type env loc slot r h
  | Ty.functionInternal, r, h => decodeInternalFn_ok_type env loc slot r h
  | Ty.struct fts, r, h => by
      unfold decode at h
      split at h
      case h_1 => simp at h
      case h_2 =>
        split at h
        · split at h
          · rename_i heq
            simp only [Except.ok.injEq] at h
            subst h
            refine ⟨rfl, ?_⟩
            simp only [Result.wellTyped]
            exact decodeFields_ok_wellTyped env loc _ fts _ heq
          · simp at h
        · simp only [Except.ok.injEq] at h
          subst h
          exact ⟨rfl, rfl⟩

theorem decodeFields_ok_wellTyped (env : DecodeEnv) (loc : Location) (slot : Nat) :
    ∀ (fts : FieldList) (rs : ResultFields),
      decodeFields env loc slot fts = Except.ok rs →
      ResultFields.wellTypedAgainst fts rs = true
  | FieldList.nil, rs, h => by
      simp only [decodeFields, Except.ok.injEq] at h
      subst h
      rfl
  | FieldList.cons n t rest, rs, h => by
      unfold decodeFields at h
      split at h
      · simp at h
      · rename_i r0 heq0
        split at h
        · simp at h
        · rename_i rs0 heq1
          simp only [Except.ok.injEq] at h
          subst h
          have h0 := decode_ok_type env loc slot t r0 heq0
          have h1 := decodeFields_ok_wellTyped env loc (slot + 1) rest rs0 heq1
          simp only [ResultFields.wellTypedAgainst, h0.1, Ty.beq_self_true, h0.2, h1,
            beq_self_eq_true, Bool.and_self]

end

theorem decodeFields_pointwise (env : DecodeEnv) (loc : Location) :
    ∀ (fts : FieldList) (b : Nat),
      (∀ i n t, fts.get? i = some (n, t) → ∃ r, decode env loc (b + i) t = Except.ok r) →
      ∃ rs : ResultFields, decodeFields env loc b fts = Except.ok rs ∧
        rs.length = fts.length ∧
        ∀ i n t, fts.get? i = some (n, t) →
          ∃ r, rs.get? i = some (n, r) ∧ decode env loc (b + i) t = Except.ok r
  | FieldList.nil, b, _ => by
      refine ⟨ResultFields.nil, rfl, rfl, ?_⟩
      intro i n t h
      cases i <;> simp [FieldList.get?] at h
  | FieldList.cons n0 t0 rest, b, hall => by
      obtain ⟨r0, hr0⟩ := hall 0 n0 t0 rfl
      have hall2 : ∀ i n t, rest.get? i = some (n, t) →
          ∃ r, decode env loc ((b + 1) + i) t = Except.ok r := by
        intro i n t h
        have hx := hall (i + 1) n t h
        rw [Nat.add_right_comm b 1 i]
        exact hx
      obtain ⟨rs, hrs, hlen, hpt⟩ := decodeFields_pointwise env loc rest (b + 1) hall2
      refine ⟨ResultFields.cons n0 r0 rs, ?_, ?_, ?_⟩
      · unfold decodeFields
        rw [show decode env loc b t0 = Except.ok r0 from hr0, hrs]
      · simp [ResultFields.length, FieldList.length, hlen]
      · intro i n t h
        cases i with
        | zero =>
            simp only [FieldList.get?, Option.some.injEq, Prod.mk.injEq] at h
            obtain ⟨hn, ht⟩ := h
            subst hn
            subst ht
            exact ⟨r0, rfl, hr0⟩
        | succ j =>
            obtain ⟨r, hget, hdec⟩ := hpt j n t h
            refine ⟨r, hget, ?_⟩
            rw [Nat.add_right_comm b 1 j] at hdec
            exact hdec

theorem FieldList.get?_some_of_lt :
    ∀ (fts : FieldList) (i : Nat), i < fts.length → ∃ n t, fts.get? i = some (n, t)
  | FieldList.cons n t _, 0, _ => ⟨n, t, rfl⟩
  | FieldList.cons _ _ rest, i + 1, h =>
      FieldList.get?_some_of_lt rest i (Nat.lt_of_succ_lt_succ h)
  | FieldList.nil, i, h => absurd h (by simp [FieldList.length])

theorem ResultFields.lt_length_of_get?_some :
    ∀ (rs : ResultFields) (i : Nat) (x : String × Result), rs.get? i = some x → i < rs.length
  | ResultFields.cons _ _ _, 0, _, _ => Nat.succ_pos _
  | ResultFields.cons _ _ rest, i + 1, x, h =>
      Nat.succ_lt_succ (ResultFields.lt_length_of_get?_some rest i x h)
  | ResultFields.nil, _, _, h => by simp [ResultFields.get?] at h

/-
  SECTION: witness environments for the claim theorems.
-/

/-- An environment whose every read fails. -/
def failingReadEnv : DecodeEnv where
  cfg := ⟨IntegerType.BN⟩
  readWord := fun _ _ => none
  enumDefs := fun _ => none
  contractDefs := fun _ => none
  registry := fun _ => none
  jumpdests := fun _ => none
  currentContext := ⟨0, "C"⟩
  inConstructor := false
  fullContextAvailable := true
  nonStorageDefault := (1, 1)

/-
  SECTION: the claims.
-/

/-- Claim C1: exactly two fault families abort the entire top-level
decode — an unresolvable user-defined type and a read error; the
throwable set (errors.ts ErrorForThrowing) equals exactly
UserDefinedTypeNotFoundError union ReadError, and the engine's thrown
channel only ever carries such errors; every other fault is embedded as
an errorResult node. -/
theorem claim_C1 :
    (∀ e : DecoderError, e.isErrorForThrowing = true ↔
      (e.isUserDefinedTypeNotFound = true ∨ e.isReadError = true)) ∧
    (∀ (env : DecodeEnv) (loc : Location) (slot : Nat) (ty : Ty) (e : DecoderError),
      decode env loc slot ty = Except.error e → e.isErrorForThrowing = true) := by
  constructor
  · intro e
    cases e
    case genericError g =>
      cases g <;>
        simp [DecoderError.isErrorForThrowing, DecoderError.isUserDefinedTypeNotFound,
          DecoderError.isReadError]
    all_goals
      simp [DecoderError.isErrorForThrowing, DecoderError.isUserDefinedTypeNotFound,
        DecoderError.isReadError]
  · intro env loc slot ty e h
    exact decode_error_throwable env loc slot ty e h

/-- Witness for claim C1 at a concrete input: a failing storage read
throws, and the thrown error is in the throwable set. -/
theorem claim_C1_witness :
    (readFailure Location.storage 0).isErrorForThrowing = true :=
  claim_C1.2 failingReadEnv Location.storage 0 Ty.bool (readFailure Location.storage 0) rfl

/-- Claim C10: the mapping, magic and type-value categories have no
category-specific decoder errors (their error alternatives are declared
never in errors.ts), so every such ErrorResult holds one of the three
category-independent GenericErrors. -/
theorem claim_C10 :
    (∀ r : MappingErrorResult, ∃ g : GenericError, r.error = Sum.inl g) ∧
    (∀ r : MagicErrorResult, ∃ g : GenericError, r.error = Sum.inl g) ∧
    (∀ r : TypeErrorResult, ∃ g : GenericError, r.error = Sum.inl g) ∧
    (∀ g : GenericError,
      (∃ t, g = GenericError.userDefinedTypeNotFoundError t) ∨
      (∃ t raw, g = GenericError.indexedReferenceTypeError t raw) ∨
      (∃ e, g = GenericError.readError e)) := by
  refine ⟨?_, ?_, ?_, ?_⟩
  · rintro ⟨ty, g | x⟩
    · exact ⟨g, rfl⟩
    · exact Empty.elim x
  · rintro ⟨ty, g | x⟩
    · exact ⟨g, rfl⟩
    · exact Empty.elim x
  · rintro ⟨ty, g | x⟩
    · exact ⟨g, rfl⟩
    · exact Empty.elim x
  · intro g
    cases g with
    | userDefinedTypeNotFoundError t => exact Or.inl ⟨t, rfl⟩
    | indexedReferenceTypeError t raw => exact Or.inr (Or.inl ⟨t, raw, rfl⟩)
    | readError e => exact Or.inr (Or.inr ⟨e, rfl⟩)

/-- Claim C4: a mapping's keys are elementary values by construction
(values.ts KeyValuePair), so viewing any key of any mapping value as a
Result always yields kind "value", never an error. -/
theorem claim_C4 :
    ∀ (m : MappingValue), ∀ p ∈ m.value,
      (ElementaryValue.toResult p.key).kind = ResultKind.value := by
  intro m p _
  cases p.key <;> rfl

/-- A concrete key-value pair for the claim C4 witness. -/
def c4Pair : KeyValuePair :=
  ⟨ElementaryValue.uintValue (Ty.uint 8) (RawIntRep.asBN 3), Result.boolValue Ty.bool true⟩

/-- A concrete mapping value for the claim C4 witness. -/
def c4Mapping : MappingValue := ⟨⟨Ty.uint 8, Ty.bool⟩, [c4Pair]⟩

/-- Witness for claim C4 at a concrete mapping and pair. -/
theorem claim_C4_witness :
    (ElementaryValue.toResult c4Pair.key).kind = ResultKind.value :=
  claim_C4 c4Mapping c4Pair (by simp [c4Mapping])

/-- Counterexample to claim C9 as stated: it is not the case that every
numeric field of every oversized-quantity error uses the configured
representation and only it — under the string policy the
overlarge-pointer error still carries pointerAsBN (a BN base field in
errors.ts). -/
theorem claim_C9_counterexample :
    ¬ (∀ (c : Config) (f : NumericField), f ∈ overlargePointersErrorNumericFields c →
        f.rep = configuredRep c) := by
  intro h
  have hx := h ⟨IntegerType.string⟩ ⟨"pointerAsBN", FieldRep.bn⟩ (by decide)
  exact absurd hx (by decide)

/-- Claim C9 as amended: the numeric policy is applied uniformly to every
oversized-quantity error field and to every engine-emitted quantity,
except that the overlarge-pointer error additionally always carries the
pointer as the BN base field pointerAsBN, in both policies. -/
theorem claim_C9_amended :
    ∀ c : Config,
      ((∀ f ∈ boolOutOfRangeErrorNumericFields c, f.rep = configuredRep c) ∧
       (∀ f ∈ enumOutOfRangeErrorNumericFields c, f.rep = configuredRep c) ∧
       (∀ f ∈ enumNotFoundErrorNumericFields c, f.rep = configuredRep c) ∧
       (∀ f ∈ overlongArraysErrorNumericFields c, f.rep = configuredRep c) ∧
       (∀ f ∈ overlongStrictModeErrorNumericFields c, f.rep = configuredRep c) ∧
       (∀ f ∈ overlargePointersErrorNumericFields c,
         f.rep = configuredRep c ∨ f = ⟨"pointerAsBN", FieldRep.bn⟩)) ∧
      (∀ n : Nat, (reprNat c n).rep = configuredRep c) := by
  intro c
  obtain ⟨it⟩ := c
  cases it <;> exact ⟨by decide, fun n => rfl⟩

/-- Witness for claim C9 as amended, at the string policy: the bool
out-of-range error's sole numeric field is the string-representation
field. -/
theorem claim_C9_amended_witness :
    NumericField.rep ⟨"rawAsString", FieldRep.str⟩ = configuredRep ⟨IntegerType.string⟩ :=
  (claim_C9_amended ⟨IntegerType.string⟩).1.1 ⟨"rawAsString", FieldRep.str⟩ (by decide)

/-- An environment for the claim C3 witness: one good boolean word. -/
def c3Env : DecodeEnv where
  cfg := ⟨IntegerType.BN⟩
  readWord := fun _ s => if s = 0 then some 1 else none
  enumDefs := fun _ => none
  contractDefs := fun _ => none
  registry := fun _ => none
  jumpdests := fun _ => none
  currentContext := ⟨0, "C"⟩
  inConstructor := false
  fullContextAvailable := true
  nonStorageDefault := (1, 1)

/-- Claim C3: an ErrorResult always carries the attempted type descriptor
alongside its error payload, and every Result the engine produces —
recursively at every node of the tree — carries the type descriptor it
was attempting to decode. -/
theorem claim_C3 :
    (∀ (t : Ty) (e : DecoderError), (Result.errorResult t e).type = t) ∧
    (∀ (env : DecodeEnv) (loc : Location) (slot : Nat) (ty : Ty) (r : Result),
      decode env loc slot ty = Except.ok r → r.type = ty ∧ r.wellTyped = true) := by
  constructor
  · intro t e
    rfl
  · intro env loc slot ty r h
    exact decode_ok_type env loc slot ty r h

/-- Witness for claim C3 at a concrete decode. -/
theorem claim_C3_witness :
    (Result.boolValue Ty.bool true).type = Ty.bool ∧
    (Result.boolValue Ty.bool true).wellTyped = true :=
  claim_C3.2 c3Env Location.storage 0 Ty.bool (Result.boolValue Ty.bool true) rfl

/-- Claim C7: decoding an enum follows the exact precedence: missing
member list means an enum-not-found error regardless of the ordinal;
otherwise an ordinal at or beyond the member count is an out-of-range
error carrying that exact ordinal and the enum type; otherwise the named
member is produced. -/
theorem claim_C7 :
    ∀ (env : DecodeEnv) (loc : Location) (slot : Nat) (id w : Nat),
      env.readWord loc slot = some w →
      (env.enumDefs id = none →
        decode env loc slot (Ty.enum id) = Except.ok (Result.errorResult (Ty.enum id)
          (DecoderError.enumNotFoundDecodingError (Ty.enum id) (reprNat env.cfg w)))) ∧
      (∀ members, env.enumDefs id = some members → members.length ≤ w →
        decode env loc slot (Ty.enum id) = Except.ok (Result.errorResult (Ty.enum id)
          (DecoderError.enumOutOfRangeError (Ty.enum id) (reprNat env.cfg w)))) ∧
      (∀ members, env.enumDefs id = some members → w < members.length →
        decode env loc slot (Ty.enum id) =
          Except.ok (Result.enumValue (Ty.enum id) (members.getD w ""))) := by
  intro env loc slot id w hw
  refine ⟨?_, ?_, ?_⟩
  · intro hd
    simp [decode, hw, hd]
  · intro members hd hle
    simp [decode, hw, hd, Nat.not_lt.mpr hle]
  · intro members hd hlt
    simp [decode, hw, hd, hlt]

/-- An environment for the claim C7 witness: word 2, enum id 0 with a
two-member list, other enum ids unresolved. -/
def c7Env : DecodeEnv where
  cfg := ⟨IntegerType.BN⟩
  readWord := fun _ s => if s = 0 then some 2 else none
  enumDefs := fun i => if i = 0 then some ["red", "green"] else none
  contractDefs := fun _ => none
  registry := fun _ => none
  jumpdests := fun _ => none
  currentContext := ⟨0, "C"⟩
  inConstructor := false
  fullContextAvailable := true
  nonStorageDefault := (1, 1)

/-- Witness for claim C7: ordinal 2 against a two-member enum is
out-of-range carrying ordinal 2; the same ordinal against a missing
definition is enum-not-found. -/
theorem claim_C7_witness :
    decode c7Env Location.storage 0 (Ty.enum 0) = Except.ok (Result.errorResult (Ty.enum 0)
      (DecoderError.enumOutOfRangeError (Ty.enum 0) (RawIntRep.asBN 2))) ∧
    decode c7Env Location.storage 0 (Ty.enum 1) = Except.ok (Result.errorResult (Ty.enum 1)
      (DecoderError.enumNotFoundDecodingError (Ty.enum 1) (RawIntRep.asBN 2))) :=
  ⟨(claim_C7 c7Env Location.storage 0 0 2 rfl).2.1 ["red", "green"] rfl (by decide),
   (claim_C7 c7Env Location.storage 0 1 2 rfl).1 rfl⟩

/-- Claim C8: the word 1 decodes as bool to the value true; the word with
an additionally set high bit (2 to the 248th power plus 1) decodes as
bool to a BoolOutOfRangeError carrying that raw word in the configured
numeric representation, never to a misread boolean. -/
theorem claim_C8 :
    ∀ (env : DecodeEnv) (loc : Location) (slot : Nat),
      (env.readWord loc slot = some 1 →
        decode env loc slot Ty.bool = Except.ok (Result.boolValue Ty.bool true)) ∧
      (env.readWord loc slot = some (2 ^ 248 + 1) →
        decode env loc slot Ty.bool = Except.ok (Result.errorResult Ty.bool
          (DecoderError.boolOutOfRangeError (reprNat env.cfg (2 ^ 248 + 1))))) := by
  intro env loc slot
  constructor
  · intro h
    simp [decode, h]
  · intro h
    have hge : 2 ^ 248 + 1 ≥ 2 := le_trans (by norm_num) (Nat.le_add_right (2 ^ 248) 1)
    simp [decode, h, hge]

/-- An environment for the first half of the claim C8 witness. -/
def c8EnvTrue : DecodeEnv where
  cfg := ⟨IntegerType.BN⟩
  readWord := fun _ _ => some 1
  enumDefs := fun _ => none
  contractDefs := fun _ => none
  registry := fun _ => none
  jumpdests := fun _ => none
  currentContext := ⟨0, "C"⟩
  inConstructor := false
  fullContextAvailable := true
  nonStorageDefault := (1, 1)

/-- An environment for the second half of the claim C8 witness, under the
string policy, whose word has a set high bit. -/
def c8EnvHighBit : DecodeEnv where
  cfg := ⟨IntegerType.string⟩
  readWord := fun _ _ => some (2 ^ 248 + 1)
  enumDefs := fun _ => none
  contractDefs := fun _ => none
  registry := fun _ => none
  jumpdests := fun _ => none
  currentContext := ⟨0, "C"⟩
  inConstructor := false
  fullContextAvailable := true
  nonStorageDefault := (1, 1)

/-- Witness for claim C8 at both concrete words. -/
theorem claim_C8_witness :
    decode c8EnvTrue Location.memory 0 Ty.bool = Except.ok (Result.boolValue Ty.bool true) ∧
    decode c8EnvHighBit Location.memory 0 Ty.bool = Except.ok (Result.errorResult Ty.bool
      (DecoderError.boolOutOfRangeError (reprNat c8EnvHighBit.cfg (2 ^ 248 + 1)))) :=
  ⟨(claim_C8 c8EnvTrue Location.memory 0).1 rfl,
   (claim_C8 c8EnvHighBit Location.memory 0).2 rfl⟩

/-- Claim C5: once the padding checks pass, external function pointer
decoding never yields an error Result: it succeeds with an info kind
fixed by the registry in priority order — known when both the contract
and the selector resolve, invalid when only the contract resolves,
unknown whenever the address matches no known contract. -/
theorem claim_C5 :
    (∀ (env : DecodeEnv) (slot wAddr wSel : Nat),
      env.readWord Location.stack slot = some wAddr →
      env.readWord Location.stack (slot + 1) = some wSel →
      wAddr < 2 ^ 160 → wSel < 2 ^ 32 →
      decode env Location.stack slot Ty.functionExternal =
        Except.ok (Result.functionExternalValue Ty.functionExternal
          (resolveExternal env wAddr wSel))) ∧
    (∀ (env : DecodeEnv) (loc : Location) (slot w : Nat), loc ≠ Location.stack →
      env.readWord loc slot = some w → w % 2 ^ 64 = 0 →
      decode env loc slot Ty.functionExternal =
        Except.ok (Result.functionExternalValue Ty.functionExternal
          (resolveExternal env (w / 2 ^ 96) (w / 2 ^ 64 % 2 ^ 32)))) ∧
    (∀ (env : DecodeEnv) (addr sel : Nat) (c : KnownContract) (abiEntry : String),
      env.registry addr = some c → selectorLookup c sel = some abiEntry →
      resolveExternal env addr sel = FunctionExternalValueInfo.known c sel abiEntry) ∧
    (∀ (env : DecodeEnv) (addr sel : Nat) (c : KnownContract),
      env.registry addr = some c → selectorLookup c sel = none →
      resolveExternal env addr sel = FunctionExternalValueInfo.invalid c sel) ∧
    (∀ (env : DecodeEnv) (addr sel : Nat),
      env.registry addr = none →
      resolveExternal env addr sel = FunctionExternalValueInfo.unknown addr sel) := by
  refine ⟨?_, ?_, ?_, ?_, ?_⟩
  · intro env slot wAddr wSel h1 h2 ha hs
    simp only [decode, decodeExternal, h1, h2]
    rw [if_pos ⟨ha, hs⟩]
  · intro env loc slot w hloc h1 hm
    cases loc
    case stack => exact absurd rfl hloc
    all_goals
      simp only [decode, decodeExternal, h1]
      rw [if_pos hm]
  · intro env addr sel c abiEntry hr hs
    simp [resolveExternal, hr, hs]
  · intro env addr sel c hr hs
    simp [resolveExternal, hr, hs]
  · intro env addr sel hr
    simp [resolveExternal, hr]

/-- An environment for the claim C5 witness: one registered contract at
address 7 with the single selector 1, and stack words for a valid
pointer. -/
def c5Env : DecodeEnv where
  cfg := ⟨IntegerType.BN⟩
  readWord := fun l s =>
    if l = Location.stack then (if s = 0 then some 7 else if s = 1 then some 1 else none)
    else none
  enumDefs := fun _ => none
  contractDefs := fun _ => none
  registry := fun a => if a = 7 then some ⟨"Foo", [(1, "f")]⟩ else none
  jumpdests := fun _ => none
  currentContext := ⟨0, "C"⟩
  inConstructor := false
  fullContextAvailable := true
  nonStorageDefault := (1, 1)

/-- Witness for claim C5: a concrete stack decode that succeeds, a known
resolution, an invalid resolution, and an unknown resolution for an
unregistered address. -/
theorem claim_C5_witness :
    decode c5Env Location.stack 0 Ty.functionExternal =
      Except.ok (Result.functionExternalValue Ty.functionExternal
        (resolveExternal c5Env 7 1)) ∧
    resolveExternal c5Env 7 1 = FunctionExternalValueInfo.known ⟨"Foo", [(1, "f")]⟩ 1 "f" ∧
    resolveExternal c5Env 7 2 = FunctionExternalValueInfo.invalid ⟨"Foo", [(1, "f")]⟩ 2 ∧
    resolveExternal c5Env 9 1 = FunctionExternalValueInfo.unknown 9 1 :=
  ⟨claim_C5.1 c5Env 0 7 1 rfl rfl (by norm_num) (by norm_num),
   claim_C5.2.2.1 c5Env 7 1 ⟨"Foo", [(1, "f")]⟩ "f" rfl rfl,
   claim_C5.2.2.2.1 c5Env 7 2 ⟨"Foo", [(1, "f")]⟩ rfl rfl,
   claim_C5.2.2.2.2 c5Env 9 1 rfl⟩

/-- Claim C6: an internal function pointer whose PC pair equals the
canonical default for its location (the all-zero pair in storage, the
fixed nonzero pair elsewhere) decodes to an exception-kind value carrying
that PC pair, not to an error result. -/
theorem claim_C6 :
    ∀ (env : DecodeEnv) (loc : Location) (slot w : Nat),
      env.readWord loc slot = some w → w < 2 ^ 64 →
      (w / 2 ^ 32, w % 2 ^ 32) = canonicalDefault env loc →
      decode env loc slot Ty.functionInternal =
        Except.ok (Result.functionInternalValue Ty.functionInternal
          (FunctionInternalValueInfo.exception env.currentContext (w / 2 ^ 32) (w % 2 ^ 32))) := by
  intro env loc slot w hw hlt hdef
  have hor : (w / 2 ^ 32, w % 2 ^ 32) = (0, 0) ∨
      (w / 2 ^ 32, w % 2 ^ 32) = env.nonStorageDefault := by
    cases loc
    case storage => exact Or.inl hdef
    all_goals exact Or.inr hdef
  simp only [decode, decodeInternalFn, hw]
  rw [if_pos hlt]
  unfold classifyInternal
  rw [if_pos hor]

/-- An environment for the claim C6 witness: the word read in memory
carries exactly the canonical non-storage default PC pair (4, 10). -/
def c6Env : DecodeEnv where
  cfg := ⟨IntegerType.BN⟩
  readWord := fun _ _ => some (4 * 2 ^ 32 + 10)
  enumDefs := fun _ => none
  contractDefs := fun _ => none
  registry := fun _ => none
  jumpdests := fun _ => none
  currentContext := ⟨0, "C"⟩
  inConstructor := false
  fullContextAvailable := true
  nonStorageDefault := (4, 10)

/-- Witness for claim C6: outside storage, the word carrying the
canonical default PC pair decodes to the exception sentinel. -/
theorem claim_C6_witness :
    decode c6Env Location.memory 3 Ty.functionInternal =
      Except.ok (Result.functionInternalValue Ty.functionInternal
        (FunctionInternalValueInfo.exception c6Env.currentContext
          ((4 * 2 ^ 32 + 10) / 2 ^ 32) ((4 * 2 ^ 32 + 10) % 2 ^ 32))) :=
  claim_C6 c6Env Location.memory 3 (4 * 2 ^ 32 + 10) rfl (by norm_num) rfl

/-- Claim C2: a struct whose pointer is representable and which has one
corrupted field decodes to an overall value-tagged Result whose children
are error-tagged exactly at the corrupted index and value-tagged at every
other index; the child error never escalates the parent. -/
theorem claim_C2 :
    ∀ (env : DecodeEnv) (loc : Location) (slot : Nat) (fts : FieldList) (ptr j : Nat),
      env.readWord loc slot = some ptr → ptr < 2 ^ 53 →
      (∀ i n t, i ≠ j → fts.get? i = some (n, t) →
        ∃ r, decode env loc (ptr + i) t = Except.ok r ∧ r.kind = ResultKind.value) →
      (∀ n t, fts.get? j = some (n, t) →
        ∃ ty e, decode env loc (ptr + j) t = Except.ok (Result.errorResult ty e)) →
      ∃ rs : ResultFields,
        decode env loc slot (Ty.struct fts) =
          Except.ok (Result.structValue (Ty.struct fts) rs) ∧
        (Result.structValue (Ty.struct fts) rs).kind = ResultKind.value ∧
        rs.length = fts.length ∧
        (∀ i n r, i ≠ j → rs.get? i = some (n, r) → r.kind = ResultKind.value) ∧
        (∀ n r, rs.get? j = some (n, r) → r.kind = ResultKind.error) := by
  intro env loc slot fts ptr j hread hptr hothers hcorrupt
  have hall : ∀ i n t, fts.get? i = some (n, t) →
      ∃ r, decode env loc (ptr + i) t = Except.ok r := by
    intro i n t hget
    by_cases hij : i = j
    · subst hij
      obtain ⟨ty, e, hde⟩ := hcorrupt n t hget
      exact ⟨Result.errorResult ty e, hde⟩
    · obtain ⟨r, hr, _⟩ := hothers i n t hij hget
      exact ⟨r, hr⟩
  obtain ⟨rs, hrs, hlen, hpt⟩ := decodeFields_pointwise env loc fts ptr hall
  refine ⟨rs, ?_, rfl, hlen, ?_, ?_⟩
  · simp only [decode, hread]
    rw [if_pos hptr, hrs]
  · intro i n r hij hgetr
    have hi : i < fts.length :=
      hlen ▸ ResultFields.lt_length_of_get?_some rs i (n, r) hgetr
    obtain ⟨n2, t2, hget2⟩ := FieldList.get?_some_of_lt fts i hi
    obtain ⟨r2, hgetr2, hdec2⟩ := hpt i n2 t2 hget2
    obtain ⟨r3, hdec3, hkind3⟩ := hothers i n2 t2 hij hget2
    have hpair : (n, r) = (n2, r2) := Option.some.inj (hgetr.symm.trans hgetr2)
    have hr2 : r = r2 := congrArg Prod.snd hpair
    have hr23 : r2 = r3 := by
      have hx := hdec2.symm.trans hdec3
      injection hx
    rw [hr2, hr23]
    exact hkind3
  · intro n r hgetr
    have hj : j < fts.length :=
      hlen ▸ ResultFields.lt_length_of_get?_some rs j (n, r) hgetr
    obtain ⟨n2, t2, hget2⟩ := FieldList.get?_some_of_lt fts j hj
    obtain ⟨r2, hgetr2, hdec2⟩ := hpt j n2 t2 hget2
    obtain ⟨ty, e, hde⟩ := hcorrupt n2 t2 hget2
    have hpair : (n, r) = (n2, r2) := Option.some.inj (hgetr.symm.trans hgetr2)
    have hr2 : r = r2 := congrArg Prod.snd hpair
    have hr2e : r2 = Result.errorResult ty e := by
      have hx := hdec2.symm.trans hde
      injection hx
    rw [hr2, hr2e]
    rfl

/-- The declared field list for the claim C2 witness: two boolean fields. -/
def c2Fields : FieldList :=
  FieldList.cons "a" Ty.bool (FieldList.cons "b" Ty.bool FieldList.nil)

/-- An environment for the claim C2 witness: the struct pointer word is
10, field "a" reads the valid boolean word 1, field "b" reads the
corrupted word 5. -/
def c2Env : DecodeEnv where
  cfg := ⟨IntegerType.BN⟩
  readWord := fun _ s =>
    if s = 0 then some 10 else if s = 10 then some 1 else if s = 11 then some 5 else none
  enumDefs := fun _ => none
  contractDefs := fun _ => none
  registry := fun _ => none
  jumpdests := fun _ => none
  currentContext := ⟨0, "C"⟩
  inConstructor := false
  fullContextAvailable := true
  nonStorageDefault := (1, 1)

/-- Witness for claim C2: the concrete two-field struct with field "b"
corrupted decodes to a value-tagged struct whose child 1 is the sole
error. -/
theorem claim_C2_witness :
    ∃ rs : ResultFields,
      decode c2Env Location.storage 0 (Ty.struct c2Fields) =
        Except.ok (Result.structValue (Ty.struct c2Fields) rs) ∧
      (Result.structValue (Ty.struct c2Fields) rs).kind = ResultKind.value ∧
      rs.length = c2Fields.length ∧
      (∀ i n r, i ≠ 1 → rs.get? i = some (n, r) → r.kind = ResultKind.value) ∧
      (∀ n r, rs.get? 1 = some (n, r) → r.kind = ResultKind.error) :=
  claim_C2 c2Env Location.storage 0 c2Fields 10 1 rfl (by norm_num)
    (by
      intro i n t hij hget
      match i, hget with
      | 0, hget =>
          simp only [c2Fields, FieldList.get?, Option.some.injEq, Prod.mk.injEq] at hget
          obtain ⟨hn, ht⟩ := hget
          subst hn
          subst ht
          exact ⟨Result.boolValue Ty.bool true, rfl, rfl⟩
      | 1, hget => exact absurd rfl hij
      | (k + 2), hget => simp [c2Fields, FieldList.get?] at hget)
    (by
      intro n t hget
      simp only [c2Fields, FieldList.get?, Option.some.injEq, Prod.mk.injEq] at hget
      obtain ⟨hn, ht⟩ := hget
      subst hn
      subst ht
      exact ⟨Ty.bool, DecoderError.boolOutOfRangeError (RawIntRep.asBN 5), rfl⟩)

end Truffle
